import Mathlib

/-!
Shallow embedding of `src/libcore/iter/adapters/fuse.rs` (the `Fuse<I>`
iterator adapter of the Rust core library) and proofs of the specified
properties.

Modelling conventions:
* A Rust iterator method `fn m(&mut self) -> Option<Item>` on the wrapped
  iterator `I` is an arbitrary function `σ → Option α × σ` where `σ` is the
  iterator's state type and the returned `σ` is the mutated state.  Keeping
  these functions arbitrary models "for every wrapped iterator", including
  misbehaving ones that produce values again after reporting `None`.
* `Fuse<I> { iter: Option<I> }` becomes `Fuse σ` with field `iter : Option σ`.
* The short-circuiting `Try` result type `R` with `Ok = Acc` is modelled as
  `Except E Acc`; `Try::from_ok` is `Except.ok` and the `?` operator is an
  early return on `Except.error`.
* The `unsafe intrinsics::unreachable()` in the `unchecked!` macro (fast
  path for `I: FusedIterator`) is modelled by an `Option` result: `none`
  marks that the unreachable branch was executed.
-/

/-- The `Fuse` wrapper: `struct Fuse<I> { iter: Option<I> }` (fuse.rs:18-21). -/
structure Fuse (σ : Type) where
  iter : Option σ
deriving DecidableEq, Repr

/-- `Fuse::new` (fuse.rs:23-25): wraps the iterator, `iter = Some(iter)`. -/
def Fuse.new {σ : Type} (s : σ) : Fuse σ :=
  ⟨some s⟩

/-- The `fuse!` macro (fuse.rs:32-45): delegate a call to the wrapped
iterator when present; if the delegated call returns `None`, set
`self.iter = None` and return `None`; otherwise keep the mutated iterator
and return the item.  When `iter` is already `None`, return `None` without
touching the underlying iterator. -/
def fuseCall {σ α : Type} (c : σ → Option α × σ) (f : Fuse σ) : Option α × Fuse σ :=
  match f.iter with
  | some s =>
    match c s with
    | (none, _) => (none, ⟨none⟩)
    | (some a, s2) => (some a, ⟨some s2⟩)
  | none => (none, f)

/-- Generic-path `next` (fuse.rs:226-228): `fuse!(self.iter.next())`. -/
def Fuse.next {σ α : Type} (nx : σ → Option α × σ) (f : Fuse σ) : Option α × Fuse σ :=
  fuseCall nx f

/-- Generic-path `nth` (fuse.rs:231-233): `fuse!(self.iter.nth(n))`. -/
def Fuse.nth {σ α : Type} (nthU : Nat → σ → Option α × σ) (n : Nat) (f : Fuse σ) :
    Option α × Fuse σ :=
  fuseCall (nthU n) f

/-- Generic-path `last` (fuse.rs:236-241): consumes the wrapper; delegate
when present, otherwise `None`. -/
def Fuse.last {σ α : Type} (lastU : σ → Option α) (f : Fuse σ) : Option α :=
  match f.iter with
  | some s => lastU s
  | none => none

/-- Generic-path `count` (fuse.rs:244-249): consumes the wrapper; delegate
when present, otherwise `0`. -/
def Fuse.count {σ : Type} (countU : σ → Nat) (f : Fuse σ) : Nat :=
  match f.iter with
  | some s => countU s
  | none => 0

/-- Generic-path `size_hint` (fuse.rs:252-257): delegate when present,
otherwise `(0, Some(0))`. -/
def Fuse.size_hint {σ : Type} (sh : σ → Nat × Option Nat) (f : Fuse σ) : Nat × Option Nat :=
  match f.iter with
  | some s => sh s
  | none => (0, some 0)

/-- Generic-path `try_fold` (fuse.rs:260-271).  `tf acc s` models
`iter.try_fold(acc, fold)` together with the mutated iterator state.  The
source is `acc = iter.try_fold(acc, fold)?; self.iter = None;` inside
`if let Some(ref mut iter)`: on `Ok` the wrapper transitions to absent; on
short-circuit the `?` returns early and `self.iter` keeps the mutated
iterator. -/
def Fuse.try_fold {σ Acc E : Type} (tf : Acc → σ → Except E Acc × σ) (acc : Acc)
    (f : Fuse σ) : Except E Acc × Fuse σ :=
  match f.iter with
  | some s =>
    match tf acc s with
    | (Except.ok a, _) => (Except.ok a, ⟨none⟩)
    | (Except.error e, s2) => (Except.error e, ⟨some s2⟩)
  | none => (Except.ok acc, f)

/-- Generic-path `fold` (fuse.rs:274-282): consumes the wrapper; delegate
when present, otherwise return the accumulator unchanged. -/
def Fuse.fold {σ Acc : Type} (fd : Acc → σ → Acc) (acc : Acc) (f : Fuse σ) : Acc :=
  match f.iter with
  | some s => fd acc s
  | none => acc

/-- Generic-path `find` (fuse.rs:285-290): `fuse!(self.iter.find(predicate))`. -/
def Fuse.find {σ α : Type} (findU : (α → Bool) → σ → Option α × σ) (p : α → Bool)
    (f : Fuse σ) : Option α × Fuse σ :=
  fuseCall (findU p) f

/-- Generic-path `next_back` (fuse.rs:376-378): `fuse!(self.iter.next_back())`. -/
def Fuse.next_back {σ α : Type} (nb : σ → Option α × σ) (f : Fuse σ) : Option α × Fuse σ :=
  fuseCall nb f

/-- Generic-path `nth_back` (fuse.rs:381-383): `fuse!(self.iter.nth_back(n))`. -/
def Fuse.nth_back {σ α : Type} (nbU : Nat → σ → Option α × σ) (n : Nat) (f : Fuse σ) :
    Option α × Fuse σ :=
  fuseCall (nbU n) f

/-- Generic-path `try_rfold` (fuse.rs:386-397): same shape as `try_fold`,
delegating to the wrapped iterator's `try_rfold`. -/
def Fuse.try_rfold {σ Acc E : Type} (tf : Acc → σ → Except E Acc × σ) (acc : Acc)
    (f : Fuse σ) : Except E Acc × Fuse σ :=
  match f.iter with
  | some s =>
    match tf acc s with
    | (Except.ok a, _) => (Except.ok a, ⟨none⟩)
    | (Except.error e, s2) => (Except.error e, ⟨some s2⟩)
  | none => (Except.ok acc, f)

/-- Generic-path `rfold` (fuse.rs:400-408). -/
def Fuse.rfold {σ Acc : Type} (fd : Acc → σ → Acc) (acc : Acc) (f : Fuse σ) : Acc :=
  match f.iter with
  | some s => fd acc s
  | none => acc

/-- Generic-path `rfind` (fuse.rs:411-416): `fuse!(self.iter.rfind(predicate))`. -/
def Fuse.rfind {σ α : Type} (rfindU : (α → Bool) → σ → Option α × σ) (p : α → Bool)
    (f : Fuse σ) : Option α × Fuse σ :=
  fuseCall (rfindU p) f

/-- Generic-path `len` (fuse.rs:471-476): delegate when present, otherwise 0. -/
def Fuse.len {σ : Type} (lenU : σ → Nat) (f : Fuse σ) : Nat :=
  match f.iter with
  | some s => lenU s
  | none => 0

/-- Generic-path `is_empty` (fuse.rs:478-483): delegate when present,
otherwise `true`. -/
def Fuse.is_empty {σ : Type} (emp : σ → Bool) (f : Fuse σ) : Bool :=
  match f.iter with
  | some s => emp s
  | none => true

/-! ### Fast path: the `I: FusedIterator` specialization (fuse.rs:293-348,
419-459, 486-497).  Every operation is `unchecked!(self).method(...)`:
an unconditional access of `iter` assuming `Some`, with
`intrinsics::unreachable()` (undefined behaviour) on `None`.  The `none`
result below marks execution of that unreachable branch. -/

/-- The `unchecked!` macro (fuse.rs:49-57) applied to a `&mut self` call:
delegate assuming `iter` is `Some`, keeping the mutated iterator;
`none` = the unreachable branch was executed. -/
def uncheckedCall {σ α : Type} (c : σ → Option α × σ) (f : Fuse σ) :
    Option (Option α × Fuse σ) :=
  match f.iter with
  | some s => some ((c s).1, ⟨some (c s).2⟩)
  | none => none

/-- Fast-path `next` (fuse.rs:299-301): `unchecked!(self).next()`. -/
def Fuse.fastNext {σ α : Type} (nx : σ → Option α × σ) (f : Fuse σ) :
    Option (Option α × Fuse σ) :=
  uncheckedCall nx f

/-- Fast-path `nth` (fuse.rs:304-306). -/
def Fuse.fastNth {σ α : Type} (nthU : Nat → σ → Option α × σ) (n : Nat) (f : Fuse σ) :
    Option (Option α × Fuse σ) :=
  uncheckedCall (nthU n) f

/-- Fast-path `last` (fuse.rs:309-311), consuming. -/
def Fuse.fastLast {σ α : Type} (lastU : σ → Option α) (f : Fuse σ) : Option (Option α) :=
  match f.iter with
  | some s => some (lastU s)
  | none => none

/-- Fast-path `count` (fuse.rs:314-316), consuming. -/
def Fuse.fastCount {σ : Type} (countU : σ → Nat) (f : Fuse σ) : Option Nat :=
  match f.iter with
  | some s => some (countU s)
  | none => none

/-- Fast-path `size_hint` (fuse.rs:319-321). -/
def Fuse.fastSizeHint {σ : Type} (sh : σ → Nat × Option Nat) (f : Fuse σ) :
    Option (Nat × Option Nat) :=
  match f.iter with
  | some s => some (sh s)
  | none => none

/-- Fast-path `try_fold` (fuse.rs:324-331): direct forward, iterator stays
present regardless of the outcome. -/
def Fuse.fastTryFold {σ Acc E : Type} (tf : Acc → σ → Except E Acc × σ) (acc : Acc)
    (f : Fuse σ) : Option (Except E Acc × Fuse σ) :=
  match f.iter with
  | some s => some ((tf acc s).1, ⟨some (tf acc s).2⟩)
  | none => none

/-- Fast-path `fold` (fuse.rs:334-339), consuming. -/
def Fuse.fastFold {σ Acc : Type} (fd : Acc → σ → Acc) (acc : Acc) (f : Fuse σ) :
    Option Acc :=
  match f.iter with
  | some s => some (fd acc s)
  | none => none

/-- Fast-path `find` (fuse.rs:342-347). -/
def Fuse.fastFind {σ α : Type} (findU : (α → Bool) → σ → Option α × σ) (p : α → Bool)
    (f : Fuse σ) : Option (Option α × Fuse σ) :=
  uncheckedCall (findU p) f

/-- Fast-path `next_back` (fuse.rs:425-427). -/
def Fuse.fastNextBack {σ α : Type} (nb : σ → Option α × σ) (f : Fuse σ) :
    Option (Option α × Fuse σ) :=
  uncheckedCall nb f

/-- Fast-path `nth_back` (fuse.rs:430-432). -/
def Fuse.fastNthBack {σ α : Type} (nbU : Nat → σ → Option α × σ) (n : Nat) (f : Fuse σ) :
    Option (Option α × Fuse σ) :=
  uncheckedCall (nbU n) f

/-- Fast-path `try_rfold` (fuse.rs:435-442). -/
def Fuse.fastTryRfold {σ Acc E : Type} (tf : Acc → σ → Except E Acc × σ) (acc : Acc)
    (f : Fuse σ) : Option (Except E Acc × Fuse σ) :=
  match f.iter with
  | some s => some ((tf acc s).1, ⟨some (tf acc s).2⟩)
  | none => none

/-- Fast-path `rfold` (fuse.rs:445-450), consuming. -/
def Fuse.fastRfold {σ Acc : Type} (fd : Acc → σ → Acc) (acc : Acc) (f : Fuse σ) :
    Option Acc :=
  match f.iter with
  | some s => some (fd acc s)
  | none => none

/-- Fast-path `rfind` (fuse.rs:453-458). -/
def Fuse.fastRfind {σ α : Type} (rfindU : (α → Bool) → σ → Option α × σ) (p : α → Bool)
    (f : Fuse σ) : Option (Option α × Fuse σ) :=
  uncheckedCall (rfindU p) f

/-- Fast-path `len` (fuse.rs:490-492). -/
def Fuse.fastLen {σ : Type} (lenU : σ → Nat) (f : Fuse σ) : Option Nat :=
  match f.iter with
  | some s => some (lenU s)
  | none => none

/-- Fast-path `is_empty` (fuse.rs:494-496). -/
def Fuse.fastIsEmpty {σ : Type} (emp : σ → Bool) (f : Fuse σ) : Option Bool :=
  match f.iter with
  | some s => some (emp s)
  | none => none

/-! ### A concrete well-behaved wrapped iterator over a list, used for
witnesses and for the "sequence of N known values" claims.  Its methods
follow the Rust default implementations of `Iterator` specialized to a
forward list cursor. -/

/-- `next` of a list iterator: pop the head. -/
def listNext {α : Type} : List α → Option α × List α
  | [] => (none, [])
  | a :: l => (some a, l)

/-- `nth` of a list iterator: skip `n` elements, then pop. -/
def listNth {α : Type} : Nat → List α → Option α × List α
  | _, [] => (none, [])
  | 0, a :: l => (some a, l)
  | n + 1, _ :: l => listNth n l

/-- `next_back` of a list iterator: pop the last element. -/
def listNextBack {α : Type} (l : List α) : Option α × List α :=
  match l.getLast? with
  | none => (none, [])
  | some a => (some a, l.dropLast)

/-- `find` of a list iterator: pull until the predicate matches. -/
def listFind {α : Type} (p : α → Bool) : List α → Option α × List α
  | [] => (none, [])
  | a :: l => if p a then (some a, l) else listFind p l

/-- `count` of a list iterator. -/
def listCount {α : Type} (l : List α) : Nat :=
  l.length

/-- `size_hint` of a list iterator: exact. -/
def listSizeHint {α : Type} (l : List α) : Nat × Option Nat :=
  (l.length, some l.length)

/-- `try_fold` of a list iterator: fold with early exit, returning the
outcome together with the not-yet-consumed rest of the list. -/
def listTryFold {α Acc E : Type} (fd : Acc → α → Except E Acc) :
    Acc → List α → Except E Acc × List α
  | acc, [] => (Except.ok acc, [])
  | acc, a :: l =>
    match fd acc a with
    | Except.ok acc2 => listTryFold fd acc2 l
    | Except.error e => (Except.error e, l)

/-! ### Traces of `next` calls (claim C1) and of mixed front/back calls
(claim C3).  `true` selects the front end (`next`), `false` the back end
(`next_back`). -/

/-- Apply one pull in the chosen direction through the generic path. -/
def applyDir {σ α : Type} (nx nb : σ → Option α × σ) : Bool → Fuse σ → Option α × Fuse σ
  | true, f => Fuse.next nx f
  | false, f => Fuse.next_back nb f

/-- Wrapper state after `k` pulls, directions chosen by `d`. -/
def Fuse.stateAfterD {σ α : Type} (nx nb : σ → Option α × σ) (d : Nat → Bool) :
    Nat → Fuse σ → Fuse σ
  | 0, f => f
  | k + 1, f => (applyDir nx nb (d k) (Fuse.stateAfterD nx nb d k f)).2

/-- Output of the `i`-th pull (0-based), directions chosen by `d`. -/
def Fuse.outAtD {σ α : Type} (nx nb : σ → Option α × σ) (d : Nat → Bool) (f : Fuse σ)
    (i : Nat) : Option α :=
  (applyDir nx nb (d i) (Fuse.stateAfterD nx nb d i f)).1

/-- Wrapper state after `k` plain `next` calls. -/
def Fuse.stateAfter {σ α : Type} (nx : σ → Option α × σ) : Nat → Fuse σ → Fuse σ
  | 0, f => f
  | k + 1, f => (Fuse.next nx (Fuse.stateAfter nx k f)).2

/-- Output of the `i`-th `next` call (0-based). -/
def Fuse.outAt {σ α : Type} (nx : σ → Option α × σ) (f : Fuse σ) (i : Nat) : Option α :=
  (Fuse.next nx (Fuse.stateAfter nx i f)).1

/-! ### Basic lemmas about `fuseCall`. -/

/-- When `iter` is absent, `fuse!` returns `None` and forwards nothing:
the result does not depend on the delegated call and the state is unchanged. -/
theorem fuseCall_absent {σ α : Type} (c : σ → Option α × σ) (f : Fuse σ)
    (h : f.iter = none) : fuseCall c f = (none, f) := by
  cases f with
  | mk it => cases it <;> simp_all [fuseCall]

/-- When the delegated call reports `None`, `fuse!` sets `iter` to `None`. -/
theorem fuseCall_out_none {σ α : Type} (c : σ → Option α × σ) (f : Fuse σ)
    (h : (fuseCall c f).1 = none) : (fuseCall c f).2.iter = none := by
  cases f with
  | mk it =>
    cases it with
    | none => rfl
    | some s =>
      rcases hc : c s with ⟨r, s2⟩
      cases r <;> simp [fuseCall, hc] at h ⊢

/-- `fuse!` never resurrects an absent iterator. -/
theorem fuseCall_iter_mono {σ α : Type} (c : σ → Option α × σ) (f : Fuse σ)
    (h : f.iter = none) : (fuseCall c f).2.iter = none := by
  rw [fuseCall_absent c f h]; exact h

/-- A pull in either direction on an absent wrapper returns `None`,
independently of the underlying iterator, with the state unchanged. -/
theorem applyDir_absent {σ α : Type} (nx nb : σ → Option α × σ) (dir : Bool) (f : Fuse σ)
    (h : f.iter = none) : applyDir nx nb dir f = (none, f) := by
  cases dir
  · exact fuseCall_absent nb f h
  · exact fuseCall_absent nx f h

/-- A pull in either direction that returns `None` leaves `iter` absent. -/
theorem applyDir_out_none {σ α : Type} (nx nb : σ → Option α × σ) (dir : Bool) (f : Fuse σ)
    (h : (applyDir nx nb dir f).1 = none) : (applyDir nx nb dir f).2.iter = none := by
  cases dir
  · exact fuseCall_out_none nb f h
  · exact fuseCall_out_none nx f h

/-- Once absent, still absent after one more pull of a mixed trace. -/
theorem stateAfterD_absent_step {σ α : Type} (nx nb : σ → Option α × σ) (d : Nat → Bool)
    (k : Nat) (f : Fuse σ) (h : (Fuse.stateAfterD nx nb d k f).iter = none) :
    (Fuse.stateAfterD nx nb d (k + 1) f).iter = none := by
  show ((applyDir nx nb (d k) (Fuse.stateAfterD nx nb d k f)).2).iter = none
  rw [applyDir_absent nx nb (d k) _ h]
  exact h

/-- Once absent, absent at every later point of a mixed trace. -/
theorem stateAfterD_absent_mono {σ α : Type} (nx nb : σ → Option α × σ) (d : Nat → Bool)
    (f : Fuse σ) {k j : Nat} (hkj : k ≤ j)
    (h : (Fuse.stateAfterD nx nb d k f).iter = none) :
    (Fuse.stateAfterD nx nb d j f).iter = none := by
  induction j, hkj using Nat.le_induction with
  | base => exact h
  | succ j hj ih => exact stateAfterD_absent_step nx nb d j f ih

/-- Once absent, still absent after one more `next`. -/
theorem stateAfter_absent_step {σ α : Type} (nx : σ → Option α × σ) (k : Nat) (f : Fuse σ)
    (h : (Fuse.stateAfter nx k f).iter = none) :
    (Fuse.stateAfter nx (k + 1) f).iter = none := by
  show ((Fuse.next nx (Fuse.stateAfter nx k f)).2).iter = none
  exact fuseCall_iter_mono nx _ h

/-- Once absent, absent at every later point of a `next` trace. -/
theorem stateAfter_absent_mono {σ α : Type} (nx : σ → Option α × σ) (f : Fuse σ)
    {k j : Nat} (hkj : k ≤ j) (h : (Fuse.stateAfter nx k f).iter = none) :
    (Fuse.stateAfter nx j f).iter = none := by
  induction j, hkj using Nat.le_induction with
  | base => exact h
  | succ j hj ih => exact stateAfter_absent_step nx j f ih

/-- C1: monotonic exhaustion on the generic path.  For every wrapped
iterator `nx` (including misbehaving ones that would produce values after a
`None`) and every trace of `next` calls, once the `i`-th call returns
`None`, every later call returns `None`; moreover the wrapper is then in
the absent state, and any later `next` returns `None` with the state
unchanged for every possible underlying iterator `c` — i.e. nothing is
forwarded to the underlying iterator anymore. -/
theorem fuse_monotonic_exhaustion {σ α : Type} (nx : σ → Option α × σ) (f : Fuse σ)
    (i j : Nat) (hij : i ≤ j) (h : Fuse.outAt nx f i = none) :
    Fuse.outAt nx f j = none ∧ (Fuse.stateAfter nx (j + 1) f).iter = none ∧
      ∀ c : σ → Option α × σ,
        Fuse.next c (Fuse.stateAfter nx (j + 1) f) =
          (none, Fuse.stateAfter nx (j + 1) f) := by
  have h1 : (Fuse.stateAfter nx (i + 1) f).iter = none :=
    fuseCall_out_none nx (Fuse.stateAfter nx i f) h
  have hj1 : (Fuse.stateAfter nx (j + 1) f).iter = none :=
    stateAfter_absent_mono nx f (Nat.succ_le_succ hij) h1
  refine ⟨?_, hj1, fun c => fuseCall_absent c _ hj1⟩
  rcases Nat.eq_or_lt_of_le hij with rfl | hlt
  · exact h
  · have hjst : (Fuse.stateAfter nx j f).iter = none :=
      stateAfter_absent_mono nx f hlt h1
    have := fuseCall_absent nx (Fuse.stateAfter nx j f) hjst
    simp [Fuse.outAt, Fuse.next, this]

/-- A misbehaving iterator: at state 0 it reports `None`, but probed
directly afterwards it produces values again forever. -/
def badNext : Nat → Option Nat × Nat
  | 0 => (none, 1)
  | n + 1 => (some n, n + 2)

/-- Witness for C1 at the misbehaving iterator `badNext`: the 0-th `next`
through the wrapper returns `None`, so the 2-nd does too and the wrapper is
absent, although `badNext` itself would keep producing values. -/
theorem fuse_monotonic_exhaustion_witness :
    Fuse.outAt badNext (Fuse.new 0) 2 = none ∧
      (Fuse.stateAfter badNext 3 (Fuse.new 0)).iter = none :=
  ⟨(fuse_monotonic_exhaustion badNext (Fuse.new 0) 0 2 (by decide) (by decide)).1,
   (fuse_monotonic_exhaustion badNext (Fuse.new 0) 0 2 (by decide) (by decide)).2.1⟩

/-- C3: the absent flag is shared between the two ends.  For every
double-ended wrapped iterator (`nx` forward, `nb` backward) and every mixed
trace of front/back pulls chosen by `d`, once the `i`-th pull (from either
end) returns `None`, every later pull — from either end — returns `None`,
and the wrapper is in the absent state from then on.  Taking `d` constant
gives the independent forward-only and backward-only monotonicity; taking
`d i ≠ d (i + 1)` gives exhaustion observed from one end making the other
end report exhausted on its next call. -/
theorem fuse_double_ended_shared_exhaustion {σ α : Type} (nx nb : σ → Option α × σ)
    (d : Nat → Bool) (f : Fuse σ) (i j : Nat) (hij : i ≤ j)
    (h : Fuse.outAtD nx nb d f i = none) :
    Fuse.outAtD nx nb d f j = none ∧
      (Fuse.stateAfterD nx nb d (j + 1) f).iter = none := by
  have h1 : (Fuse.stateAfterD nx nb d (i + 1) f).iter = none :=
    applyDir_out_none nx nb (d i) (Fuse.stateAfterD nx nb d i f) h
  have hj1 : (Fuse.stateAfterD nx nb d (j + 1) f).iter = none :=
    stateAfterD_absent_mono nx nb d f (Nat.succ_le_succ hij) h1
  refine ⟨?_, hj1⟩
  rcases Nat.eq_or_lt_of_le hij with rfl | hlt
  · exact h
  · have hjst : (Fuse.stateAfterD nx nb d j f).iter = none :=
      stateAfterD_absent_mono nx nb d f hlt h1
    have := applyDir_absent nx nb (d j) (Fuse.stateAfterD nx nb d j f) hjst
    simp [Fuse.outAtD, this]

/-- Witness for C3 on the list iterator over `[1]` with the alternating
trace front, back, front, back: the back pull at index 1 observes
exhaustion, so the front/back pulls afterwards return `None`. -/
theorem fuse_double_ended_shared_exhaustion_witness :
    Fuse.outAtD listNext listNextBack (fun i => i % 2 == 0) (Fuse.new [1]) 3 = none ∧
      (Fuse.stateAfterD listNext listNextBack (fun i => i % 2 == 0) 4
        (Fuse.new [1])).iter = none :=
  fuse_double_ended_shared_exhaustion listNext listNextBack (fun i => i % 2 == 0)
    (Fuse.new [1]) 1 3 (by decide) (by decide)

/-! ### Reachable states of the generic-path wrapper (claim C4).  The
mutating operations are `next`, `nth`, `find`, `next_back`, `nth_back`,
`rfind` — all instances of `fuse!` with some delegated call — and
`try_fold` / `try_rfold`.  (`last`, `count` and `fold` consume the wrapper
by value, so no state is reachable after them.)  For `try_fold` the state
evolution depends only on the ok/error outcome and the mutated iterator
state, so `Except Unit Unit` is fully general. -/

/-- One mutating operation of the generic path. -/
inductive FOp (σ α : Type) where
  | call (c : σ → Option α × σ)
  | tfold (t : σ → Except Unit Unit × σ)

/-- The state effect of one mutating operation, through the source
definitions. -/
def applyFOp {σ α : Type} : FOp σ α → Fuse σ → Fuse σ
  | FOp.call c, f => (fuseCall c f).2
  | FOp.tfold t, f => (Fuse.try_fold (fun _ s => t s) () f).2

/-- Whether an operation observes exhaustion of the wrapped iterator: a
delegated call that returns `None`, or a delegated `try_fold` that runs to
completion (returns `Ok`, i.e. the wrapped iterator was drained). -/
def opObservesExhaustion {σ α : Type} : FOp σ α → Fuse σ → Bool
  | FOp.call c, f =>
    match f.iter with
    | some s => ((c s).1).isNone
    | none => false
  | FOp.tfold t, f =>
    match f.iter with
    | some s =>
      match (t s).1 with
      | Except.ok _ => true
      | Except.error _ => false
    | none => false

/-- Run a sequence of mutating operations, tracking whether exhaustion has
been observed at least once. -/
def runFOps {σ α : Type} : List (FOp σ α) → Fuse σ × Bool → Fuse σ × Bool
  | [], st => st
  | op :: ops, (f, b) => runFOps ops (applyFOp op f, b || opObservesExhaustion op f)

/-- After one operation, `iter` is absent exactly when it already was or
the operation observed exhaustion. -/
theorem applyFOp_iter_none_iff {σ α : Type} (op : FOp σ α) (f : Fuse σ) :
    (applyFOp op f).iter = none ↔
      (f.iter = none ∨ opObservesExhaustion op f = true) := by
  cases op with
  | call c =>
    cases f with
    | mk it =>
      cases it with
      | none => simp [applyFOp, opObservesExhaustion, fuseCall]
      | some s =>
        rcases hc : c s with ⟨r, s2⟩
        cases r <;> simp [applyFOp, opObservesExhaustion, fuseCall, hc]
  | tfold t =>
    cases f with
    | mk it =>
      cases it with
      | none => simp [applyFOp, opObservesExhaustion, Fuse.try_fold]
      | some s =>
        rcases ht : t s with ⟨r, s2⟩
        cases r <;> simp [applyFOp, opObservesExhaustion, Fuse.try_fold, ht]

/-- The invariant of the generic path is preserved by any run. -/
theorem runFOps_invariant {σ α : Type} (ops : List (FOp σ α)) (f : Fuse σ) (b : Bool)
    (h : f.iter = none ↔ b = true) :
    (runFOps ops (f, b)).1.iter = none ↔ (runFOps ops (f, b)).2 = true := by
  induction ops generalizing f b with
  | nil => exact h
  | cons op ops ih =>
    apply ih
    constructor
    · intro hn
      rcases (applyFOp_iter_none_iff op f).1 hn with hf | hobs
      · simp [h.1 hf]
      · simp [hobs]
    · intro hb
      rcases (by simpa using hb : b = true ∨ opObservesExhaustion op f = true) with
        hb1 | hobs
      · exact (applyFOp_iter_none_iff op f).2 (Or.inl (h.2 hb1))
      · exact (applyFOp_iter_none_iff op f).2 (Or.inr hobs)

/-- C4: in every state reachable from a freshly constructed generic-path
wrapper by any sequence of mutating wrapper operations, `iter` is absent if
and only if exhaustion has been observed at least once; and the
present-to-absent transition is one-way — no operation (including a fully
general `try_fold`) ever turns an absent `iter` back into `Some`. -/
theorem fuse_absent_iff_exhaustion_observed {σ α : Type} (ops : List (FOp σ α)) (s : σ) :
    ((runFOps ops (Fuse.new s, false)).1.iter = none ↔
      (runFOps ops (Fuse.new s, false)).2 = true) ∧
    (∀ (op : FOp σ α) (f : Fuse σ), f.iter = none → (applyFOp op f).iter = none) ∧
    (∀ (Acc E : Type) (tf : Acc → σ → Except E Acc × σ) (acc : Acc) (f : Fuse σ),
      f.iter = none → (Fuse.try_fold tf acc f).2.iter = none) := by
  refine ⟨runFOps_invariant ops (Fuse.new s) false (by simp [Fuse.new]), ?_, ?_⟩
  · intro op f hf
    exact (applyFOp_iter_none_iff op f).2 (Or.inl hf)
  · intro Acc E tf acc f hf
    cases f with
    | mk it => cases it <;> simp_all [Fuse.try_fold]

/-- A sample operation sequence for the C4 witness: two `next` pulls and a
completing `try_fold` on the list iterator over `[1, 2]`. -/
def sampleOps : List (FOp (List Nat) Nat) :=
  [FOp.call listNext, FOp.call listNext,
   FOp.tfold (fun l => listTryFold (fun a _ => Except.ok a) () l)]

/-- Witness for C4: the invariant instantiated at a concrete run, and the
one-way transition instantiated at a concrete operation and absent state. -/
theorem fuse_absent_iff_exhaustion_observed_witness :
    ((runFOps sampleOps (Fuse.new [1, 2], false)).1.iter = none ↔
      (runFOps sampleOps (Fuse.new [1, 2], false)).2 = true) ∧
    (applyFOp (FOp.call listNext) (⟨none⟩ : Fuse (List Nat))).iter = none :=
  ⟨(fuse_absent_iff_exhaustion_observed sampleOps [1, 2]).1,
   (fuse_absent_iff_exhaustion_observed sampleOps [1, 2]).2.1
     (FOp.call listNext) ⟨none⟩ rfl⟩

/-- A short-circuiting accumulator that signals early termination at the
very first value. -/
def stopNow : Unit → Nat → Except Unit Unit :=
  fun _ _ => Except.error ()

/-- Counterexample to C2 as stated.  Wrap `[1, 2, 3]` and `try_fold` with
an accumulator that short-circuits at the 1st value (`k = 1 < N = 3`).  The
claim says the wrapper's `iter` is then `None`; in the code the `?` in
`acc = iter.try_fold(acc, fold)?;` returns before `self.iter = None` runs,
so `iter` is still `Some` (holding the rest `[2, 3]`). -/
theorem fuse_try_fold_short_circuit_counterexample :
    (Fuse.try_fold (listTryFold stopNow) () (Fuse.new [1, 2, 3])).2 =
      (⟨some [2, 3]⟩ : Fuse (List Nat)) ∧
    ¬ (Fuse.try_fold (listTryFold stopNow) () (Fuse.new [1, 2, 3])).2.iter = none := by
  decide

/-- C2 amended: after `try_fold` / `try_rfold` on a present wrapper, the
transition to absent happens exactly when the delegated fold runs to
completion (returns the success outcome); when the accumulator
short-circuits — whether at the k-th value with k < N or k = N — the `?`
operator returns early and `iter` stays present, holding the mutated
wrapped iterator.  On an absent wrapper both folds return the accumulator
unchanged in the success outcome. -/
theorem fuse_try_fold_absent_iff_completed {σ Acc E : Type}
    (tf trf : Acc → σ → Except E Acc × σ) (acc : Acc) (s : σ) :
    (∀ a s2, tf acc s = (Except.ok a, s2) →
      Fuse.try_fold tf acc (⟨some s⟩ : Fuse σ) = (Except.ok a, ⟨none⟩)) ∧
    (∀ e s2, tf acc s = (Except.error e, s2) →
      Fuse.try_fold tf acc (⟨some s⟩ : Fuse σ) = (Except.error e, ⟨some s2⟩)) ∧
    Fuse.try_fold tf acc (⟨none⟩ : Fuse σ) = (Except.ok acc, ⟨none⟩) ∧
    (∀ a s2, trf acc s = (Except.ok a, s2) →
      Fuse.try_rfold trf acc (⟨some s⟩ : Fuse σ) = (Except.ok a, ⟨none⟩)) ∧
    (∀ e s2, trf acc s = (Except.error e, s2) →
      Fuse.try_rfold trf acc (⟨some s⟩ : Fuse σ) = (Except.error e, ⟨some s2⟩)) ∧
    Fuse.try_rfold trf acc (⟨none⟩ : Fuse σ) = (Except.ok acc, ⟨none⟩) := by
  refine ⟨?_, ?_, rfl, ?_, ?_, rfl⟩
  · intro a s2 h; simp [Fuse.try_fold, h]
  · intro e s2 h; simp [Fuse.try_fold, h]
  · intro a s2 h; simp [Fuse.try_rfold, h]
  · intro e s2 h; simp [Fuse.try_rfold, h]

/-- An accumulator that never short-circuits, summing the values. -/
def sumAll : Nat → Nat → Except Unit Nat :=
  fun acc a => Except.ok (acc + a)

/-- Witness for the amended C2: a completing fold over `[1, 2]` leaves the
wrapper absent and returns the sum; a short-circuiting fold over
`[1, 2, 3]` leaves the wrapper present at `[2, 3]`. -/
theorem fuse_try_fold_absent_iff_completed_witness :
    Fuse.try_fold (listTryFold sumAll) 0 (⟨some [1, 2]⟩ : Fuse (List Nat)) =
      (Except.ok 3, ⟨none⟩) ∧
    Fuse.try_fold (listTryFold stopNow) () (⟨some [1, 2, 3]⟩ : Fuse (List Nat)) =
      (Except.error (), ⟨some [2, 3]⟩) :=
  ⟨(fuse_try_fold_absent_iff_completed (listTryFold sumAll) (listTryFold sumAll)
      0 [1, 2]).1 3 [] rfl,
   (fuse_try_fold_absent_iff_completed (listTryFold stopNow) (listTryFold stopNow)
      () [1, 2, 3]).2.1 () [2, 3] rfl⟩

/-! ### Fast-path traces (claims C5, C8).  `true` selects `next`, `false`
selects `next_back`; `none` in the result marks that some call executed the
`unreachable` branch of `unchecked!`. -/

/-- Run a mixed front/back trace through the fast-path wrapper. -/
def runFastDirs {σ α : Type} (nx nb : σ → Option α × σ) :
    List Bool → Fuse σ → Option (List (Option α) × Fuse σ)
  | [], f => some ([], f)
  | dir :: ds, f =>
    match uncheckedCall (if dir then nx else nb) f with
    | none => none
    | some (r, f2) =>
      match runFastDirs nx nb ds f2 with
      | none => none
      | some (os, g) => some (r :: os, g)

/-- Run the same mixed trace directly on the raw iterator, bypassing the
wrapper. -/
def runRawDirs {σ α : Type} (nx nb : σ → Option α × σ) :
    List Bool → σ → List (Option α) × σ
  | [], s => ([], s)
  | dir :: ds, s =>
    let r := (if dir then nx else nb) s
    let rest := runRawDirs nx nb ds r.2
    (r.1 :: rest.1, rest.2)

/-- The fast-path trace equals the raw trace, call for call, and ends
holding the same raw state. -/
theorem runFastDirs_eq_raw {σ α : Type} (nx nb : σ → Option α × σ) (ds : List Bool)
    (s : σ) :
    runFastDirs nx nb ds (Fuse.new s) =
      some ((runRawDirs nx nb ds s).1, Fuse.new (runRawDirs nx nb ds s).2) := by
  induction ds generalizing s with
  | nil => rfl
  | cons dir ds ih =>
    simp [runFastDirs, runRawDirs, uncheckedCall, Fuse.new] at ih ⊢
    rw [ih]

/-- C5: fast-path transparency.  For a wrapped iterator that statically
declares the fuse guarantee, an arbitrary mixed trace of `next` /
`next_back` calls through the wrapper returns exactly the outputs of
probing the raw iterator directly — with the wrapper afterwards holding
exactly the raw iterator's final state, so each wrapper call makes exactly
one underlying call — and every other operation (`nth`, `last`, `count`,
`size_hint`, `try_fold`, `fold`, `find`, `nth_back`, `try_rfold`, `rfold`,
`rfind`, `len`, `is_empty`) is a direct, unconditional forward delivering
the underlying operation's exact result. -/
theorem fuse_fast_path_transparency {σ α Acc E : Type} (nx nb : σ → Option α × σ)
    (nthU nbU : Nat → σ → Option α × σ) (findU rfindU : (α → Bool) → σ → Option α × σ)
    (lastU : σ → Option α) (countU lenU : σ → Nat) (emp : σ → Bool)
    (sh : σ → Nat × Option Nat) (tf trf : Acc → σ → Except E Acc × σ)
    (fd rfd : Acc → σ → Acc) (acc : Acc) (p : α → Bool) (n : Nat)
    (ds : List Bool) (s : σ) :
    runFastDirs nx nb ds (Fuse.new s) =
      some ((runRawDirs nx nb ds s).1, Fuse.new (runRawDirs nx nb ds s).2) ∧
    Fuse.fastNext nx (Fuse.new s) = some ((nx s).1, Fuse.new (nx s).2) ∧
    Fuse.fastNth nthU n (Fuse.new s) = some ((nthU n s).1, Fuse.new (nthU n s).2) ∧
    Fuse.fastLast lastU (Fuse.new s) = some (lastU s) ∧
    Fuse.fastCount countU (Fuse.new s) = some (countU s) ∧
    Fuse.fastSizeHint sh (Fuse.new s) = some (sh s) ∧
    Fuse.fastTryFold tf acc (Fuse.new s) = some ((tf acc s).1, Fuse.new (tf acc s).2) ∧
    Fuse.fastFold fd acc (Fuse.new s) = some (fd acc s) ∧
    Fuse.fastFind findU p (Fuse.new s) = some ((findU p s).1, Fuse.new (findU p s).2) ∧
    Fuse.fastNextBack nb (Fuse.new s) = some ((nb s).1, Fuse.new (nb s).2) ∧
    Fuse.fastNthBack nbU n (Fuse.new s) = some ((nbU n s).1, Fuse.new (nbU n s).2) ∧
    Fuse.fastTryRfold trf acc (Fuse.new s) =
      some ((trf acc s).1, Fuse.new (trf acc s).2) ∧
    Fuse.fastRfold rfd acc (Fuse.new s) = some (rfd acc s) ∧
    Fuse.fastRfind rfindU p (Fuse.new s) =
      some ((rfindU p s).1, Fuse.new (rfindU p s).2) ∧
    Fuse.fastLen lenU (Fuse.new s) = some (lenU s) ∧
    Fuse.fastIsEmpty emp (Fuse.new s) = some (emp s) :=
  ⟨runFastDirs_eq_raw nx nb ds s, rfl, rfl, rfl, rfl, rfl, rfl, rfl, rfl, rfl, rfl,
   rfl, rfl, rfl, rfl, rfl⟩

/-- C8: the `unreachable` branch of `unchecked!` is never executed.  Under
the construction invariant that `iter` is present, every `unchecked!`
access succeeds; the fast-path calls never set `iter` to `None`, so the
invariant is preserved; hence a whole trace from a freshly constructed
wrapper never executes the unreachable branch, and neither does any of the
other fast-path operations. -/
theorem fuse_fast_path_unreachable_never_hit {σ α Acc E : Type}
    (nx nb : σ → Option α × σ) (lastU : σ → Option α) (countU lenU : σ → Nat)
    (emp : σ → Bool) (sh : σ → Nat × Option Nat) (tf : Acc → σ → Except E Acc × σ)
    (fd : Acc → σ → Acc) (acc : Acc) (ds : List Bool) (s : σ) :
    (runFastDirs nx nb ds (Fuse.new s)).isSome = true ∧
    (∀ (c : σ → Option α × σ) (f : Fuse σ), f.iter ≠ none →
      (uncheckedCall c f).isSome = true) ∧
    (∀ (c : σ → Option α × σ) (f : Fuse σ) (r : Option α × Fuse σ),
      uncheckedCall c f = some r → r.2.iter ≠ none) ∧
    (Fuse.fastLast lastU (Fuse.new s)).isSome = true ∧
    (Fuse.fastCount countU (Fuse.new s)).isSome = true ∧
    (Fuse.fastSizeHint sh (Fuse.new s)).isSome = true ∧
    (Fuse.fastTryFold tf acc (Fuse.new s)).isSome = true ∧
    (Fuse.fastFold fd acc (Fuse.new s)).isSome = true ∧
    (Fuse.fastLen lenU (Fuse.new s)).isSome = true ∧
    (Fuse.fastIsEmpty emp (Fuse.new s)).isSome = true := by
  refine ⟨?_, ?_, ?_, rfl, rfl, rfl, rfl, rfl, rfl, rfl⟩
  · rw [runFastDirs_eq_raw nx nb ds s]; rfl
  · intro c f hf
    cases f with
    | mk it => cases it <;> simp_all [uncheckedCall]
  · intro c f r hr
    cases f with
    | mk it =>
      cases it with
      | none => simp [uncheckedCall] at hr
      | some s2 =>
        simp [uncheckedCall] at hr
        subst hr
        simp

/-- Witness for C8: a concrete trace over the list iterator on `[1, 2]`
never executes the unreachable branch, and a concrete `unchecked!` access
on a present wrapper succeeds. -/
theorem fuse_fast_path_unreachable_never_hit_witness :
    (runFastDirs listNext listNextBack [true, false, true] (Fuse.new [1, 2])).isSome =
      true ∧
    (uncheckedCall listNext (Fuse.new ([] : List Nat))).isSome = true :=
  ⟨(fuse_fast_path_unreachable_never_hit listNext listNextBack List.getLast?
      listCount listCount List.isEmpty listSizeHint (listTryFold sumAll)
      (fun a _ => a) 0 [true, false, true] [1, 2]).1,
   (fuse_fast_path_unreachable_never_hit listNext listNextBack List.getLast?
      listCount listCount List.isEmpty listSizeHint (listTryFold sumAll)
      (fun a _ => a) 0 [true, false, true] [1, 2]).2.1 listNext (Fuse.new [])
      (by simp [Fuse.new])⟩

/-- C6: count correctness on the generic path.  Wrapping a list of N known
values and calling `count` returns N (delegating to the wrapped iterator's
`count`); in general a present wrapper delegates `count` unchanged, and a
wrapper in the absent state — the only state a wrapper can be in once
exhaustion has been observed, such as after the delegated count drained the
iterator — returns 0, so a second count observes 0. -/
theorem fuse_count_correctness {σ α : Type} (countU : σ → Nat) (s : σ) (l : List α) :
    Fuse.count listCount (Fuse.new l) = l.length ∧
    Fuse.count countU (Fuse.new s) = countU s ∧
    Fuse.count countU (⟨none⟩ : Fuse σ) = 0 :=
  ⟨rfl, rfl, rfl⟩

/-- C7: size estimate around exhaustion on the generic path.  An absent
wrapper reports the exact-zero estimate `(0, Some(0))`; a present wrapper
delegates `size_hint` to the wrapped iterator unchanged. -/
theorem fuse_size_hint_post_exhaustion {σ : Type} (sh : σ → Nat × Option Nat) (s : σ) :
    Fuse.size_hint sh (⟨none⟩ : Fuse σ) = (0, some 0) ∧
    Fuse.size_hint sh (⟨some s⟩ : Fuse σ) = sh s :=
  ⟨rfl, rfl⟩

/-- C9: `nth`, `find`, `nth_back` and `rfind` follow the `fuse!` rule.  For
every skip count `n` and predicate `p`: on an absent wrapper they return
`None` without delegating (for every underlying iterator); on a present
wrapper they delegate, a `None` outcome of the delegation transitions
`iter` to absent, and a value outcome is returned with the (mutated)
iterator kept present. -/
theorem fuse_nth_find_follow_fuse_rule {σ α : Type} (nthU nbU : Nat → σ → Option α × σ)
    (findU rfindU : (α → Bool) → σ → Option α × σ) (p : α → Bool) (n : Nat) (s : σ) :
    (Fuse.nth nthU n (⟨none⟩ : Fuse σ) = (none, ⟨none⟩) ∧
     (∀ s2, nthU n s = (none, s2) → Fuse.nth nthU n ⟨some s⟩ = (none, ⟨none⟩)) ∧
     (∀ a s2, nthU n s = (some a, s2) → Fuse.nth nthU n ⟨some s⟩ = (some a, ⟨some s2⟩))) ∧
    (Fuse.find findU p (⟨none⟩ : Fuse σ) = (none, ⟨none⟩) ∧
     (∀ s2, findU p s = (none, s2) → Fuse.find findU p ⟨some s⟩ = (none, ⟨none⟩)) ∧
     (∀ a s2, findU p s = (some a, s2) →
       Fuse.find findU p ⟨some s⟩ = (some a, ⟨some s2⟩))) ∧
    (Fuse.nth_back nbU n (⟨none⟩ : Fuse σ) = (none, ⟨none⟩) ∧
     (∀ s2, nbU n s = (none, s2) → Fuse.nth_back nbU n ⟨some s⟩ = (none, ⟨none⟩)) ∧
     (∀ a s2, nbU n s = (some a, s2) →
       Fuse.nth_back nbU n ⟨some s⟩ = (some a, ⟨some s2⟩))) ∧
    (Fuse.rfind rfindU p (⟨none⟩ : Fuse σ) = (none, ⟨none⟩) ∧
     (∀ s2, rfindU p s = (none, s2) → Fuse.rfind rfindU p ⟨some s⟩ = (none, ⟨none⟩)) ∧
     (∀ a s2, rfindU p s = (some a, s2) →
       Fuse.rfind rfindU p ⟨some s⟩ = (some a, ⟨some s2⟩))) := by
  refine ⟨⟨rfl, ?_, ?_⟩, ⟨rfl, ?_, ?_⟩, ⟨rfl, ?_, ?_⟩, ⟨rfl, ?_, ?_⟩⟩
  all_goals intros
  all_goals rename_i h
  all_goals
    simp [Fuse.nth, Fuse.find, Fuse.nth_back, Fuse.rfind, fuseCall, h]

/-- Witness for C9 on the list iterator: skipping one element of
`[5, 6, 7]` yields 6 with `[7]` kept, and searching `[1, 2]` for a value
above 9 exhausts the wrapper. -/
theorem fuse_nth_find_follow_fuse_rule_witness :
    Fuse.nth listNth 1 (⟨some [5, 6, 7]⟩ : Fuse (List Nat)) = (some 6, ⟨some [7]⟩) ∧
    Fuse.find listFind (fun a => decide (9 < a)) (⟨some [1, 2]⟩ : Fuse (List Nat)) =
      (none, ⟨none⟩) :=
  ⟨(fuse_nth_find_follow_fuse_rule listNth listNth listFind listFind
      (fun a => decide (9 < a)) 1 [5, 6, 7]).1.2.2 6 [7] rfl,
   (fuse_nth_find_follow_fuse_rule listNth listNth listFind listFind
      (fun a => decide (9 < a)) 1 [1, 2]).2.1.2.1 [] rfl⟩

/-- C10: the exact-size interface on the generic path.  An absent wrapper
reports `len = 0` and `is_empty = true`; a present wrapper delegates both
to the wrapped iterator unchanged. -/
theorem fuse_len_is_empty_exact_size {σ : Type} (lenU : σ → Nat) (emp : σ → Bool)
    (s : σ) :
    Fuse.len lenU (⟨none⟩ : Fuse σ) = 0 ∧
    Fuse.is_empty emp (⟨none⟩ : Fuse σ) = true ∧
    Fuse.len lenU (⟨some s⟩ : Fuse σ) = lenU s ∧
    Fuse.is_empty emp (⟨some s⟩ : Fuse σ) = emp s :=
  ⟨rfl, rfl, rfl, rfl⟩
